import Mathlib

/-!
Verification of the loan-application intake logic of `app.py`
(Pathway_application repository).

The shallow embedding below translates the pure core of the program:
the field-validation engine (`validate_fields`), the helper predicates
(`_is_valid_fico`, the compiled regular expressions), rep-code signing
and verification (`sign_rep_code` / `verify_rep_code`, with the
HMAC-SHA256 digest of the Python standard library abstracted as an
arbitrary keyed digest function `H : String → String`), the submission
assembler of the `/submit` handler, and the post-submission upload
handler `upload_docs`.

Modelling conventions:
* A form (`request.form` normalised to a `dict`) is an association list
  `List (String × String)`; `dict.get` is `List.lookup`.  Python's
  truthiness test `not form.get(k)` (missing key or empty string) is
  `blankF`.
* Python `str.strip()` / `str.lower()` are modelled on the ASCII
  whitespace / letter ranges (`pyStrip`, `pyLower`); Unicode categories
  are abstracted away.
* Python `re` patterns are hand-translated to boolean functions on the
  character list of the string.  `\d` is modelled as an ASCII digit.
  The anchor `$` of the `re` module (without `re.MULTILINE`) matches at
  the end of the string *or just before a final newline*; this is
  modelled faithfully by `pyDollar`.
* `float(...)` of Python is modelled as an exact decimal-literal parser
  into `ℚ` (`parsePyFloat`): optional sign, digits with optional
  fraction and optional exponent.  Non-finite literals (`inf`, `nan`)
  and digit-group underscores are outside this rational abstraction and
  are treated as parse failures.
* External effects (Supabase insert, file system writes, PDF, SMTP) are
  dropped; the store-generated application id is a parameter `sid`, and
  uploaded files are represented by their client-supplied filenames.
-/

namespace Pathway

/-! ## Python string primitives -/

/-- The characters of Python's `str.strip()` / `\s` whitespace set
(ASCII part): space, tab, newline, vertical tab, form feed, carriage
return. -/
def pyIsSpace (c : Char) : Bool :=
  c = ' ' || c = '\t' || c = '\n' || c = '\x0b' || c = '\x0c' || c = '\r'

/-- Remove leading whitespace characters. -/
def stripStart (cs : List Char) : List Char := cs.dropWhile pyIsSpace

/-- Remove trailing whitespace characters. -/
def stripEnd (cs : List Char) : List Char :=
  ((cs.reverse).dropWhile pyIsSpace).reverse

/-- Python `str.strip()` (ASCII whitespace). -/
def pyStrip (s : String) : String := String.mk (stripEnd (stripStart s.data))

/-- Python `str.lower()` (ASCII letters). -/
def pyLower (s : String) : String := String.mk (s.data.map Char.toLower)

/-! ## Form model -/

/-- A submitted form: field name → string value, modelled as an
association list (Python `dict` with string values). -/
abbrev Form := List (String × String)

/-- `form.get(k)`: `none` when the key is missing. -/
def getField (f : Form) (k : String) : Option String := f.lookup k

/-- `form.get(k) or ""` / `form.get(k, "")`. -/
def getS (f : Form) (k : String) : String := (getField f k).getD ""

/-- Python truthiness failure `not form.get(k)`: key missing or value
empty. -/
def blankF (f : Form) (k : String) : Bool :=
  match getField f k with
  | none => true
  | some s => s = ""

/-- `form[k] = v` (later lookups see the new value). -/
def setField (f : Form) (k v : String) : Form := (k, v) :: f

/-- Removal of a key (used to model omitting a field from a form). -/
def eraseField : Form → String → Form
  | [], _ => []
  | p :: f, k => if p.1 = k then eraseField f k else p :: eraseField f k

/-! ## Regular expressions

Each compiled pattern of the source is hand-translated to a boolean
matcher over the character list.  `pyDollar rest` models the final `$`
anchor of `re.match` (no MULTILINE): the remaining input must be empty
or a single final newline. -/

/-- Python `$` (end of string, or just before a trailing newline). -/
def pyDollar (rest : List Char) : Bool :=
  rest = [] || rest = ['\n']

/-- `SSN_RE = ^(?!000|666|9\d\d)(\d{3})-(?!00)(\d{2})-(?!0000)(\d{4})$`.
The body is fixed-length (11 characters); the negative lookaheads become
direct tests on the captured characters. -/
def ssnCore (a b c : Char) (h1 : Char) (d e : Char) (h2 : Char)
    (f g i j : Char) : Bool :=
  -- (?!000|666|9\d\d) at position 0
  (¬ ((a = '0' && b = '0' && c = '0') || (a = '6' && b = '6' && c = '6')
      || (a = '9' && b.isDigit && c.isDigit)))
  -- (\d{3})-
  && a.isDigit && b.isDigit && c.isDigit && h1 = '-'
  -- (?!00)(\d{2})-
  && (¬ (d = '0' && e = '0')) && d.isDigit && e.isDigit && h2 = '-'
  -- (?!0000)(\d{4})
  && (¬ (f = '0' && g = '0' && i = '0' && j = '0'))
  && f.isDigit && g.isDigit && i.isDigit && j.isDigit

def ssnReL : List Char → Bool
  | [a, b, c, h1, d, e, h2, f, g, i, j] => ssnCore a b c h1 d e h2 f g i j
  | [a, b, c, h1, d, e, h2, f, g, i, j, nl] =>
      ssnCore a b c h1 d e h2 f g i j && nl = '\n'
  | _ => false

def ssnRe (s : String) : Bool := ssnReL s.data

/-- `EIN_RE = ^(?!00)\d{2}-\d{7}$` (fixed length 10). -/
def einCore (a b : Char) (h : Char) (c d e f g i j : Char) : Bool :=
  (¬ (a = '0' && b = '0')) && a.isDigit && b.isDigit && h = '-'
  && c.isDigit && d.isDigit && e.isDigit && f.isDigit && g.isDigit
  && i.isDigit && j.isDigit

def einRe (s : String) : Bool :=
  match s.data with
  | [a, b, h, c, d, e, f, g, i, j] => einCore a b h c d e f g i j
  | [a, b, h, c, d, e, f, g, i, j, nl] => einCore a b h c d e f g i j && nl = '\n'
  | _ => false

/-- Character class `[\s.-]` of `PHONE_RE`. -/
def sepClass (c : Char) : Bool := pyIsSpace c || c = '.' || c = '-'

/-- Take exactly `n` ASCII digits from the front. -/
def takeDigits : Nat → List Char → Option (List Char)
  | 0, cs => some cs
  | n + 1, c :: cs => if c.isDigit then takeDigits n cs else none
  | _ + 1, [] => none

/-- Tail of `PHONE_RE` after the optional `+`/`1` prefix:
`\s*\(?\d{3}\)?[\s.-]*\d{3}[\s.-]*\d{4}$`.  The optional parentheses are
deterministic (a parenthesis can never satisfy the following digit or
separator classes), so "consume if present" is complete. -/
def phoneTail (cs : List Char) : Bool :=
  let cs := cs.dropWhile pyIsSpace
  let cs := match cs with
    | '(' :: rest => rest
    | _ => cs
  match takeDigits 3 cs with
  | none => false
  | some cs =>
    let cs := match cs with
      | ')' :: rest => rest
      | _ => cs
    let cs := cs.dropWhile sepClass
    match takeDigits 3 cs with
    | none => false
    | some cs =>
      let cs := cs.dropWhile sepClass
      match takeDigits 4 cs with
      | none => false
      | some cs => pyDollar cs

/-- `PHONE_RE = ^\+?1?\s*\(?\d{3}\)?[\s.-]*\d{3}[\s.-]*\d{4}$`.
Only `1?` needs genuine backtracking ('1' is itself a digit), hence the
explicit two-branch disjunction. -/
def phoneRe (s : String) : Bool :=
  let cs := s.data
  let cs := match cs with
    | '+' :: rest => rest
    | _ => cs
  match cs with
  | '1' :: rest => phoneTail rest || phoneTail cs
  | _ => phoneTail cs

/-- `ZIP_RE = ^\d{5}(-\d{4})?$`. -/
def zipRe (s : String) : Bool :=
  match takeDigits 5 s.data with
  | none => false
  | some rest =>
    pyDollar rest ||
    (match rest with
     | '-' :: rest2 =>
       match takeDigits 4 rest2 with
       | none => false
       | some rest3 => pyDollar rest3
     | _ => false)

/-- `STATE_RE = ^[A-Za-z]{2}$`. -/
def isAsciiLetter (c : Char) : Bool :=
  ('A' ≤ c && c ≤ 'Z') || ('a' ≤ c && c ≤ 'z')

def stateRe (s : String) : Bool :=
  match s.data with
  | [a, b] => isAsciiLetter a && isAsciiLetter b
  | [a, b, nl] => isAsciiLetter a && isAsciiLetter b && nl = '\n'
  | _ => false

/-- `FICO_RE = ^\d{3}$`. -/
def ficoReL : List Char → Bool
  | [a, b, c] => a.isDigit && b.isDigit && c.isDigit
  | [a, b, c, nl] => a.isDigit && b.isDigit && c.isDigit && nl = '\n'
  | _ => false

def ficoRe (s : String) : Bool := ficoReL s.data

/-! ## FICO helper -/

/-- Numeric value of a string of ASCII digits (Python `int` on a
`\d{3}` match). -/
def digitsToNat (cs : List Char) : Nat :=
  cs.foldl (fun n c => n * 10 + (c.toNat - '0'.toNat)) 0

/-- `_is_valid_fico(value)`: accept `None`, accept a value that is blank
after stripping, otherwise require a `FICO_RE` match and a numeric value
in `[300, 850]`. -/
def _is_valid_fico (value : Option String) : Bool :=
  match value with
  | none => true
  | some s =>
    let v := pyStrip s
    if v = "" then true
    else if ¬ ficoRe v then false
    else
      let n := digitsToNat v.data
      300 ≤ n && n ≤ 850

/-! ## Validation engine (`validate_fields`) -/

/-- Base required-field list of `validate_fields`. -/
def baseReq : List String :=
  ["business_legal_name", "industry", "legal_entity", "business_start_date", "ein",
   "company_address1", "company_city", "company_state", "company_zip",
   "owner_0_first", "owner_0_last", "owner_0_pct", "owner_0_dob", "owner_0_ssn",
   "owner_0_email", "owner_0_mobile",
   "own_real_estate", "own_home_location", "own_business_location",
   "esign_consent",
   "signature_data", "signature_date", "signature_print_name"]

/-- Second-owner conditional required-field list. -/
def owner1Req : List String :=
  ["owner_1_first", "owner_1_last", "owner_1_pct", "owner_1_dob", "owner_1_ssn",
   "owner_1_email", "owner_1_mobile",
   "owner_1_addr1", "owner_1_city", "owner_1_state", "owner_1_zip"]

/-- The required-field loop: `for k in req: if not form.get(k):
errors[k] = 'Required'`. -/
def requiredErrors : List String → Form → List (String × String)
  | [], _ => []
  | k :: ks, f =>
    (if blankF f k then [(k, "Required")] else []) ++ requiredErrors ks f

/-- One pattern validation: `if form.get(k) and not RE.match(form[k]):
errors[k] = msg`. -/
def patternCheck (f : Form) (k : String) (re : String → Bool)
    (msg : String) : List (String × String) :=
  match getField f k with
  | none => []
  | some v => if v ≠ "" && ¬ re v then [(k, msg)] else []

/-- `(form.get('has_owner_1') or 'No').strip()`. -/
def hasOwner1S (f : Form) : String :=
  pyStrip (match getField f "has_owner_1" with
           | none => "No"
           | some v => if v = "" then "No" else v)

/-- `validate_fields(form)`: the accumulated error mapping, in source
order.  A Python `dict` is insertion-ordered and no key is ever
inserted twice here (each rule's guard is disjoint from the others on
the same key), so the mapping is faithfully a list of pairs. -/
def validate_fields (form : Form) : List (String × String) :=
  requiredErrors baseReq form
  ++ (if getS form "own_real_estate" = "Yes" then
        requiredErrors ["residence_tenure", "business_location_tenure"] form
      else [])
  ++ (if hasOwner1S form = "Yes" then requiredErrors owner1Req form else [])
  ++ patternCheck form "ein" einRe "Invalid EIN (##-#######)"
  ++ patternCheck form "owner_0_ssn" ssnRe "Invalid SSN (###-##-####)"
  ++ patternCheck form "owner_0_mobile" phoneRe "Invalid phone number"
  ++ patternCheck form "company_zip" zipRe "Invalid ZIP"
  ++ patternCheck form "company_state" stateRe "Use 2-letter state"
  ++ (if ¬ _is_valid_fico (getField form "owner_0_fico") then
        [("owner_0_fico", "FICO must be 300-850")]
      else [])
  ++ (if hasOwner1S form = "Yes" && ¬ _is_valid_fico (getField form "owner_1_fico") then
        [("owner_1_fico", "FICO must be 300-850")]
      else [])
  ++ (if hasOwner1S form = "Yes" then
        patternCheck form "owner_1_ssn" ssnRe "Invalid SSN (###-##-####)"
        ++ patternCheck form "owner_1_mobile" phoneRe "Invalid phone number"
        ++ patternCheck form "owner_1_zip" zipRe "Invalid ZIP"
        ++ patternCheck form "owner_1_state" stateRe "Use 2-letter state"
      else [])
  ++ (match getField form "esign_consent" with
      | none => []
      | some v => if v ≠ "" && v ≠ "Yes" then [("esign_consent", "Consent is required")] else [])

/-! ## Sales-rep directory and tamper-checked referral codes -/

structure RepInfo where
  name : String
  email : String
deriving DecidableEq, Repr

/-- The static `SALES_REPS` directory. -/
def SALES_REPS : List (String × RepInfo) :=
  [("yuly", ⟨"Yuly", "deals@pathwaycatalyst.com"⟩),
   ("tom", ⟨"Tom", "tom@pathwaycatalyst.com"⟩),
   ("troy", ⟨"Troy", "troy@pathwaycatalyst.com"⟩),
   ("adrian", ⟨"Adrian", "adrian@pathwaycatalyst.com"⟩),
   ("frank", ⟨"Frank", "frank@pathwaycatalyst.com"⟩),
   ("andres", ⟨"Andres", "andres@pathwaycatalyst.com"⟩)]

/-- `get_rep_info(rep_code)`: `None` for a falsy code, otherwise a
case-insensitive, trimmed directory lookup. -/
def get_rep_info (rep_code : String) : Option RepInfo :=
  if rep_code = "" then none
  else SALES_REPS.lookup (pyStrip (pyLower rep_code))

/-- `sign_rep_code(rep_code)`: keyed digest of the lowercased, stripped
code.  `H` abstracts `hmac.new(key, ·, sha256).hexdigest()` of the
Python standard library (an arbitrary deterministic digest function). -/
def sign_rep_code (H : String → String) (rep_code : String) : String :=
  H (pyStrip (pyLower rep_code))

/-- `verify_rep_code(rep_code, signature)`.  `hmac.compare_digest` is a
constant-time string comparison, functionally plain equality. -/
def verify_rep_code (H : String → String) (rep_code signature : String) : Bool :=
  if rep_code = "" ∨ signature = "" then rep_code == ""
  else sign_rep_code H rep_code == signature

/-! ## Python `float` on decimal literals -/

def splitDigits (cs : List Char) : List Char × List Char :=
  (cs.takeWhile Char.isDigit, cs.dropWhile Char.isDigit)

/-- Exponent suffix after `e`/`E`: optional sign, one or more digits,
end of input. -/
def parseExp (cs : List Char) : Option ℤ :=
  let p : ℤ × List Char :=
    match cs with
    | '+' :: r => (1, r)
    | '-' :: r => (-1, r)
    | _ => (1, cs)
  let ds := splitDigits p.2
  if ds.1 = [] ∨ ds.2 ≠ [] then none
  else some (p.1 * (digitsToNat ds.1 : ℤ))

/-- Python `float(s)` on finite decimal literals, as an exact rational:
surrounding whitespace stripped, optional sign, digits with optional
fraction, optional exponent.  `inf`/`nan` and digit-group underscores
are outside this abstraction (treated as failures). -/
def parsePyFloat (s : String) : Option ℚ :=
  let cs := stripEnd (stripStart s.data)
  let sp : ℚ × List Char :=
    match cs with
    | '+' :: r => (1, r)
    | '-' :: r => (-1, r)
    | _ => (1, cs)
  let ip := splitDigits sp.2
  let fr : List Char × List Char :=
    match ip.2 with
    | '.' :: rest => splitDigits rest
    | _ => ([], ip.2)
  if ip.1 = [] ∧ fr.1 = [] then none
  else
    let mant : ℚ :=
      ((digitsToNat ip.1 * 10 ^ fr.1.length + digitsToNat fr.1 : ℕ) : ℚ)
        / ((10 : ℚ) ^ fr.1.length)
    match fr.2 with
    | [] => some (sp.1 * mant)
    | 'e' :: rest => (parseExp rest).map (fun e => sp.1 * mant * (10 : ℚ) ^ e)
    | 'E' :: rest => (parseExp rest).map (fun e => sp.1 * mant * (10 : ℚ) ^ e)
    | _ => none

/-! ## Submission assembler (`/submit`) and uploads (`/upload-docs`)

External effects are abstracted: the document-store insert is assumed to
succeed and return the row id `sid`; an uploaded file is represented by
its client-supplied filename; bytes, PDF generation and email delivery
(failures of which are swallowed by the source) are dropped. -/

structure SavedFile where
  filename : String
  storage_key : String
  doc_type : String
deriving DecidableEq, Repr

structure AppRecord where
  business_legal_name : String
  industry : String
  loan_amount : ℚ
  owners : List String
  payload : Form
  ein : Option String
  business_phone : Option String
  company_website : Option String
  rep_name : Option String
  rep_email : Option String
  files : List SavedFile
deriving DecidableEq, Repr

inductive SubmitResult where
  | invalid (errors : List (String × String))
  | success (rec : AppRecord)
deriving DecidableEq, Repr

/-- `f.filename.replace("/", "_").replace("\\", "_")`. -/
def sanitizeFilename (s : String) : String :=
  String.mk ((s.data.map (fun c => if c = '/' then '_' else c)).map
    (fun c => if c = '\\' then '_' else c))

/-- The f-string `f"{sid}__{dtype}__{safe}"` naming a stored file. -/
def storageKey (sid : Nat) (dtype safe : String) : String :=
  toString sid ++ "__" ++ dtype ++ "__" ++ safe

/-- Entry normalisation of `/submit`:
`form = {k: v.strip() for k, v in request.form.items()}`. -/
def stripForm (f : Form) : Form := f.map (fun p => (p.1, pyStrip p.2))

/-- `if "has_owner_1" not in form or not form.get("has_owner_1"):
form["has_owner_1"] = "No"`. -/
def normalizeOwner1 (f : Form) : Form :=
  if blankF f "has_owner_1" then setField f "has_owner_1" "No" else f

/-- The bank-statement presence check of `/submit`. -/
def bankFileError (bankFiles : List String) : List (String × String) :=
  if bankFiles.any (fun n => ¬ n = "") then []
  else [("bank_files", "At least one bank statement is required")]

/-- The full error mapping a `/submit` request accumulates before the
validity decision. -/
def submitErrors (rawForm : Form) (bankFiles : List String) : List (String × String) :=
  validate_fields (normalizeOwner1 (stripForm rawForm)) ++ bankFileError bankFiles

/-- The owners list built by `/submit` for dashboard display. -/
def ownersOf (f : Form) : List String :=
  let first0 := pyStrip (getS f "owner_0_first")
  let last0 := pyStrip (getS f "owner_0_last")
  let owners : List String :=
    if first0 ≠ "" ∨ last0 ≠ "" then [pyStrip (first0 ++ " " ++ last0)] else []
  if hasOwner1S f = "Yes" then
    let first1 := pyStrip (getS f "owner_1_first")
    let last1 := pyStrip (getS f "owner_1_last")
    owners ++ (if first1 ≠ "" ∨ last1 ≠ "" then [pyStrip (first1 ++ " " ++ last1)] else [])
  else owners

/-- The referral attribution `/submit` resolves: the submitted
`rep_code` is cleared when its signature fails verification
(`if rep_code and not verify_rep_code(...): rep_code = ""`), then looked
up in the directory. -/
def effectiveRepInfo (H : String → String) (rawForm : Form) : Option RepInfo :=
  let form0 := stripForm rawForm
  let rep_code0 := pyStrip (getS form0 "rep_code")
  let rep_sig := pyStrip (getS form0 "rep_sig")
  let rep_code :=
    if rep_code0 ≠ "" ∧ verify_rep_code H rep_code0 rep_sig = false then ""
    else rep_code0
  get_rep_info rep_code

/-- The `/submit` handler.  `H` abstracts the HMAC digest; `sid` is the
row id generated by the store on a successful insert; `bankFiles` are
the filenames of the `bank_files` upload slot. -/
def submit (H : String → String) (sid : Nat) (rawForm : Form)
    (bankFiles : List String) : SubmitResult :=
  let rep_info := effectiveRepInfo H rawForm
  let form := normalizeOwner1 (stripForm rawForm)
  if submitErrors rawForm bankFiles = [] then
    .success
      { business_legal_name := getS form "business_legal_name"
        industry := getS form "industry"
        loan_amount :=
          match getField form "loan_amount" with
          | none => 0
          | some s => if s = "" then 0 else (parsePyFloat s).getD 0
        owners := ownersOf form
        payload := form
        ein := getField form "ein"
        business_phone := getField form "business_phone"
        company_website := getField form "company_website"
        rep_name := match rep_info with | some r => some r.name | none => none
        rep_email := match rep_info with | some r => some r.email | none => none
        files := (bankFiles.filter (fun n => ¬ n = "")).map (fun n =>
          let safe := sanitizeFilename n
          { filename := safe
            storage_key := storageKey sid "bank_statement" safe
            doc_type := "bank_statement" }) }
  else .invalid (submitErrors rawForm bankFiles)

/-- One upload slot of `/upload-docs`: save when a file with a non-empty
name arrived. -/
def saveSlot (sid : Nat) (dtype : String) (file : Option String) : List SavedFile :=
  match file with
  | none => []
  | some n =>
    if n ≠ "" then
      let safe := sanitizeFilename n
      [{ filename := safe, storage_key := storageKey sid dtype safe, doc_type := dtype }]
    else []

/-- The `/upload-docs` handler: the `voided_check` then `id_doc` slots. -/
def upload_docs (sid : Nat) (voided_check id_doc : Option String) : List SavedFile :=
  saveSlot sid "voided_check" voided_check ++ saveSlot sid "id_doc" id_doc

/-! ## Basic lemmas about the form model -/

theorem getField_set (f : Form) (k v k' : String) :
    getField (setField f k v) k' = if k' = k then some v else getField f k' := by
  by_cases h : k' = k
  · simp [getField, setField, List.lookup, h]
  · have hb : (k' == k) = false := by simp [h]
    simp [getField, setField, List.lookup, hb, h]

theorem getField_erase (f : Form) (k k' : String) :
    getField (eraseField f k) k' = if k' = k then none else getField f k' := by
  induction f with
  | nil => by_cases h : k' = k <;> simp [getField, eraseField, h]
  | cons p f ih =>
    by_cases hp : p.1 = k
    · have he : eraseField (p :: f) k = eraseField f k := by simp [eraseField, hp]
      rw [he, ih]
      by_cases h : k' = k
      · simp [h]
      · have hk' : (k' == p.1) = false := by
          have : ¬ k' = p.1 := by rw [hp]; exact h
          simp [this]
        simp [h, getField, List.lookup, hk']
    · have he : eraseField (p :: f) k = p :: eraseField f k := by simp [eraseField, hp]
      rw [he]
      by_cases h : k' = p.1
      · have hne : ¬ k' = k := by rw [h]; exact hp
        simp [getField, List.lookup, h, hne, hp]
      · have hb : (k' == p.1) = false := by simp [h]
        simp only [getField, List.lookup, hb] at *
        exact ih

theorem getField_strip (f : Form) (k : String) :
    getField (stripForm f) k = (getField f k).map pyStrip := by
  induction f with
  | nil => rfl
  | cons p f ih =>
    by_cases h : k = p.1
    · simp [stripForm, getField, List.lookup, h]
    · have hb : (k == p.1) = false := by simp [h]
      simp only [stripForm, getField, List.lookup, List.map_cons, hb] at *
      exact ih

theorem blankF_set (f : Form) (k v k' : String) :
    blankF (setField f k v) k' =
      if k' = k then decide (v = "") else blankF f k' := by
  by_cases h : k' = k <;> simp [blankF, getField_set, h]

theorem blankF_erase (f : Form) (k k' : String) :
    blankF (eraseField f k) k' = if k' = k then true else blankF f k' := by
  by_cases h : k' = k <;> simp [blankF, getField_erase, h]

theorem hasOwner1S_set (f : Form) (k v : String) (h : ¬ k = "has_owner_1") :
    hasOwner1S (setField f k v) = hasOwner1S f := by
  have : ¬ ("has_owner_1" : String) = k := fun hh => h hh.symm
  simp [hasOwner1S, getField_set, this]

theorem hasOwner1S_erase (f : Form) (k : String) (h : ¬ k = "has_owner_1") :
    hasOwner1S (eraseField f k) = hasOwner1S f := by
  have : ¬ ("has_owner_1" : String) = k := fun hh => h hh.symm
  simp [hasOwner1S, getField_erase, this]

/-! ## Lemmas about the validation components -/

theorem requiredErrors_eq_nil {ks : List String} {f : Form} :
    requiredErrors ks f = [] ↔ ∀ k ∈ ks, blankF f k = false := by
  induction ks with
  | nil => simp [requiredErrors]
  | cons k ks ih =>
    by_cases h : blankF f k <;>
      simp [requiredErrors, h, ih]

theorem requiredErrors_keys (ks : List String) (f : Form) :
    (requiredErrors ks f).map Prod.fst = ks.filter (fun k => blankF f k) := by
  induction ks with
  | nil => rfl
  | cons k ks ih =>
    by_cases h : blankF f k <;> simp [requiredErrors, List.filter, h, ih]

theorem mem_requiredErrors {ks : List String} {f : Form} {p : String × String}
    (hp : p ∈ requiredErrors ks f) : p.1 ∈ ks ∧ p.2 = "Required" ∧ blankF f p.1 = true := by
  induction ks with
  | nil => simp [requiredErrors] at hp
  | cons k ks ih =>
    by_cases h : blankF f k
    · simp only [requiredErrors, h, if_pos, List.mem_append, List.mem_singleton] at hp
      rcases hp with rfl | hp
      · exact ⟨List.mem_cons_self .., rfl, h⟩
      · obtain ⟨h1, h2, h3⟩ := ih hp
        exact ⟨List.mem_cons_of_mem _ h1, h2, h3⟩
    · simp only [requiredErrors, h, if_neg, Bool.false_eq_true, not_false_iff,
        List.nil_append] at hp
      obtain ⟨h1, h2, h3⟩ := ih hp
      exact ⟨List.mem_cons_of_mem _ h1, h2, h3⟩

theorem mem_requiredErrors_of {ks : List String} {f : Form} {k : String}
    (hk : k ∈ ks) (hb : blankF f k = true) :
    (k, "Required") ∈ requiredErrors ks f := by
  induction ks with
  | nil => simp at hk
  | cons a ks ih =>
    rcases List.mem_cons.1 hk with rfl | hk'
    · simp [requiredErrors, hb]
    · by_cases h : blankF f a <;> simp [requiredErrors, h, ih hk']

theorem requiredErrors_congr {ks : List String} {f g : Form}
    (h : ∀ k ∈ ks, blankF f k = blankF g k) :
    requiredErrors ks f = requiredErrors ks g := by
  induction ks with
  | nil => rfl
  | cons k ks ih =>
    simp only [requiredErrors]
    rw [h k (List.mem_cons_self ..), ih (fun x hx => h x (List.mem_cons_of_mem _ hx))]

theorem patternCheck_congr {f g : Form} {k : String} (re : String → Bool) (msg : String)
    (h : getField f k = getField g k) :
    patternCheck f k re msg = patternCheck g k re msg := by
  simp [patternCheck, h]

theorem patternCheck_blank {f : Form} {k : String} (re : String → Bool) (msg : String)
    (h : blankF f k = true) : patternCheck f k re msg = [] := by
  unfold patternCheck
  unfold blankF at h
  cases hg : getField f k with
  | none => rfl
  | some v => rw [hg] at h; simp_all

theorem mem_patternCheck {f : Form} {k : String} {re : String → Bool} {msg : String}
    {p : String × String} (hp : p ∈ patternCheck f k re msg) : p.1 = k ∧ p.2 = msg := by
  unfold patternCheck at hp
  split at hp
  · simp at hp
  · split at hp
    · rcases List.mem_singleton.1 hp with rfl
      exact ⟨rfl, rfl⟩
    · simp at hp

/-- `pre` is a prefix of `s` (character-wise; used to state "a field
named `owner_1_*`"). -/
def strPrefix (pre s : String) : Bool := pre.data.isPrefixOf s.data

/-- A generic helper: a filter over a duplicate-free list whose
predicate holds exactly at one member returns that singleton. -/
theorem filter_eq_singleton {l : List String} {p : String → Bool} {k : String}
    (hn : l.Nodup) (hk : k ∈ l) (hp : ∀ x ∈ l, (p x = true ↔ x = k)) :
    l.filter p = [k] := by
  induction l with
  | nil => simp at hk
  | cons a l ih =>
    rcases List.mem_cons.1 hk with rfl | hk'
    · have ha : p k = true := (hp k (List.mem_cons_self ..)).2 rfl
      rw [List.filter_cons_of_pos ha]
      have hnil : List.filter p l = [] := by
        rw [List.filter_eq_nil_iff]
        intro x hx
        have hxa : ¬ x = k := by
          rintro rfl; exact (List.nodup_cons.1 hn).1 hx
        simp [hp x (List.mem_cons_of_mem _ hx), hxa]
      rw [hnil]
    · have hak : ¬ a = k := by
        rintro rfl; exact (List.nodup_cons.1 hn).1 hk'
      have ha : p a = false := by
        cases hb : p a with
        | false => rfl
        | true => exact absurd ((hp a (List.mem_cons_self ..)).1 hb) hak
      rw [List.filter_cons_of_neg (by simp [ha])]
      exact ih (List.nodup_cons.1 hn).2 hk'
        (fun x hx => hp x (List.mem_cons_of_mem _ hx))

/-- Classification of every key that can appear in the error mapping:
it comes from the base required list, the real-estate conditional, one
of the second-owner conditionals (each guarded by its toggle), or one of
the fixed pattern/FICO/consent keys. -/
theorem mem_validate {f : Form} {p : String × String} (hp : p ∈ validate_fields f) :
    p.1 ∈ baseReq
    ∨ ((p.1 = "residence_tenure" ∨ p.1 = "business_location_tenure")
        ∧ getS f "own_real_estate" = "Yes")
    ∨ ((p.1 ∈ owner1Req ∨ p.1 = "owner_1_fico" ∨ p.1 = "owner_1_ssn"
        ∨ p.1 = "owner_1_mobile" ∨ p.1 = "owner_1_zip" ∨ p.1 = "owner_1_state")
        ∧ hasOwner1S f = "Yes")
    ∨ p.1 = "ein" ∨ p.1 = "owner_0_ssn" ∨ p.1 = "owner_0_mobile"
    ∨ p.1 = "company_zip" ∨ p.1 = "company_state" ∨ p.1 = "owner_0_fico"
    ∨ p.1 = "esign_consent" := by
  unfold validate_fields at hp
  simp only [List.mem_append] at hp
  rcases hp with
    ((((((((((h | h) | h) | h) | h) | h) | h) | h) | h) | h) | h) | h
  · exact Or.inl (mem_requiredErrors h).1
  · split at h
    · refine Or.inr (Or.inl ⟨?_, by assumption⟩)
      have := (mem_requiredErrors h).1
      simpa using this
    · simp at h
  · split at h
    · refine Or.inr (Or.inr (Or.inl ⟨Or.inl (mem_requiredErrors h).1, by assumption⟩))
    · simp at h
  · exact Or.inr (Or.inr (Or.inr (Or.inl (mem_patternCheck h).1)))
  · exact Or.inr (Or.inr (Or.inr (Or.inr (Or.inl (mem_patternCheck h).1))))
  · exact Or.inr (Or.inr (Or.inr (Or.inr (Or.inr (Or.inl (mem_patternCheck h).1)))))
  · exact Or.inr (Or.inr (Or.inr (Or.inr (Or.inr (Or.inr (Or.inl (mem_patternCheck h).1))))))
  · exact Or.inr (Or.inr (Or.inr (Or.inr (Or.inr (Or.inr (Or.inr
      (Or.inl (mem_patternCheck h).1)))))))
  · split at h
    · rcases List.mem_singleton.1 h with rfl
      exact Or.inr (Or.inr (Or.inr (Or.inr (Or.inr (Or.inr (Or.inr (Or.inr
        (Or.inl rfl))))))))
    · simp at h
  · split at h
    · rename_i hcond
      rw [Bool.and_eq_true, decide_eq_true_eq] at hcond
      rcases List.mem_singleton.1 h with rfl
      exact Or.inr (Or.inr (Or.inl ⟨Or.inr (Or.inl rfl), hcond.1⟩))
    · simp at h
  · split at h
    · rename_i hcond
      simp only [List.mem_append] at h
      rcases h with ((h | h) | h) | h
      · exact Or.inr (Or.inr (Or.inl ⟨Or.inr (Or.inr (Or.inl (mem_patternCheck h).1)), hcond⟩))
      · exact Or.inr (Or.inr (Or.inl
          ⟨Or.inr (Or.inr (Or.inr (Or.inl (mem_patternCheck h).1))), hcond⟩))
      · exact Or.inr (Or.inr (Or.inl
          ⟨Or.inr (Or.inr (Or.inr (Or.inr (Or.inl (mem_patternCheck h).1)))), hcond⟩))
      · exact Or.inr (Or.inr (Or.inl
          ⟨Or.inr (Or.inr (Or.inr (Or.inr (Or.inr (mem_patternCheck h).1)))), hcond⟩))
    · simp at h
  · split at h
    · simp at h
    · split at h
      · rcases List.mem_singleton.1 h with rfl
        exact Or.inr (Or.inr (Or.inr (Or.inr (Or.inr (Or.inr (Or.inr (Or.inr
          (Or.inr rfl))))))))
      · simp at h

theorem blank_getS {f : Form} {k : String} (h : blankF f k = true) : getS f k = "" := by
  unfold blankF at h
  unfold getS
  cases hg : getField f k with
  | none => rfl
  | some s => rw [hg] at h; simp at h; simp [h]

/-- Decomposition of a fully valid form into the per-component facts. -/
theorem validate_nil_decomp {f : Form} (h : validate_fields f = []) :
    (∀ k ∈ baseReq, blankF f k = false)
    ∧ (getS f "own_real_estate" = "Yes" →
        requiredErrors ["residence_tenure", "business_location_tenure"] f = [])
    ∧ (hasOwner1S f = "Yes" → requiredErrors owner1Req f = [])
    ∧ patternCheck f "ein" einRe "Invalid EIN (##-#######)" = []
    ∧ patternCheck f "owner_0_ssn" ssnRe "Invalid SSN (###-##-####)" = []
    ∧ patternCheck f "owner_0_mobile" phoneRe "Invalid phone number" = []
    ∧ patternCheck f "company_zip" zipRe "Invalid ZIP" = []
    ∧ patternCheck f "company_state" stateRe "Use 2-letter state" = []
    ∧ _is_valid_fico (getField f "owner_0_fico") = true
    ∧ (hasOwner1S f = "Yes" → _is_valid_fico (getField f "owner_1_fico") = true)
    ∧ (hasOwner1S f = "Yes" →
        patternCheck f "owner_1_ssn" ssnRe "Invalid SSN (###-##-####)" = []
        ∧ patternCheck f "owner_1_mobile" phoneRe "Invalid phone number" = []
        ∧ patternCheck f "owner_1_zip" zipRe "Invalid ZIP" = []
        ∧ patternCheck f "owner_1_state" stateRe "Use 2-letter state" = [])
    ∧ (match getField f "esign_consent" with
       | none => ([] : List (String × String))
       | some v => if v ≠ "" && v ≠ "Yes" then
           [("esign_consent", "Consent is required")] else []) = [] := by
  unfold validate_fields at h
  simp only [List.append_eq_nil] at h
  obtain ⟨⟨⟨⟨⟨⟨⟨⟨⟨⟨⟨h1, h2⟩, h3⟩, h4⟩, h5⟩, h6⟩, h7⟩, h8⟩, h9⟩, h10⟩, h11⟩, h12⟩ := h
  refine ⟨requiredErrors_eq_nil.1 h1, ?_, ?_, h4, h5, h6, h7, h8, ?_, ?_, ?_, h12⟩
  · intro hc; rwa [if_pos hc] at h2
  · intro hc; rwa [if_pos hc] at h3
  · by_cases hv : _is_valid_fico (getField f "owner_0_fico") = true
    · exact hv
    · rw [if_pos (by simpa using hv)] at h9; simp at h9
  · intro hy
    by_cases hv : _is_valid_fico (getField f "owner_1_fico") = true
    · exact hv
    · rw [if_pos (by simp [hy, hv])] at h10; simp at h10
  · intro hy
    rw [if_pos hy] at h11
    simp only [List.append_eq_nil] at h11
    exact ⟨h11.1.1.1, h11.1.1.2, h11.1.2, h11.2⟩

/-- Core of the required-field exactness claim: an otherwise-valid form
with exactly one base required field blanked (missing or empty) produces
exactly that field's key. -/
theorem validate_blank_one {form g : Form} {k : String}
    (hvalid : validate_fields form = []) (hk : k ∈ baseReq)
    (hagree : ∀ k', ¬ k' = k → getField g k' = getField form k')
    (hblank : blankF g k = true) :
    (validate_fields g).map Prod.fst = [k] := by
  obtain ⟨h1, h2, h3, h4, h5, h6, h7, h8, h9, h10, h11, h12⟩ := validate_nil_decomp hvalid
  have hne' : ∀ s : String, s ∉ baseReq → ¬ s = k :=
    fun s hs hsk => hs (by rw [hsk]; exact hk)
  have hGF : ∀ s : String, ¬ s = k → getField g s = getField form s := hagree
  have hBF : ∀ s : String, ¬ s = k → blankF g s = blankF form s := by
    intro s hs; unfold blankF; rw [hGF s hs]
  have hHOW : hasOwner1S g = hasOwner1S form := by
    unfold hasOwner1S; rw [hGF _ (hne' _ (by decide))]
  have cpat : ∀ (p0 : String) (re : String → Bool) (msg : String),
      patternCheck form p0 re msg = [] → patternCheck g p0 re msg = [] := by
    intro p0 re msg hform
    by_cases hkp : p0 = k
    · subst hkp; exact patternCheck_blank re msg hblank
    · rw [patternCheck_congr re msg (hGF p0 hkp)]; exact hform
  have c2 : (if getS g "own_real_estate" = "Yes" then
      requiredErrors ["residence_tenure", "business_location_tenure"] g else []) = [] := by
    by_cases hkre : k = "own_real_estate"
    · subst hkre
      rw [if_neg (by rw [blank_getS hblank]; decide)]
    · have hre : ¬ ("own_real_estate" : String) = k := fun h => hkre h.symm
      rw [show getS g "own_real_estate" = getS form "own_real_estate" by
        unfold getS; rw [hGF _ hre]]
      split
      · rename_i hcond
        rw [requiredErrors_congr (g := form) ?_]
        · exact h2 hcond
        · intro x hx
          apply hBF
          apply hne'
          have hx' : x = "residence_tenure" ∨ x = "business_location_tenure" := by
            simpa using hx
          rcases hx' with rfl | rfl <;> decide
      · rfl
  have c3 : (if hasOwner1S g = "Yes" then requiredErrors owner1Req g else []) = [] := by
    rw [hHOW]
    split
    · rename_i hcond
      rw [requiredErrors_congr (g := form) ?_]
      · exact h3 hcond
      · intro x hx
        apply hBF
        apply hne'
        have hdisj : ∀ y ∈ owner1Req, y ∉ baseReq := by decide
        exact hdisj x hx
    · rfl
  have c9 : (if ¬ _is_valid_fico (getField g "owner_0_fico") then
      [("owner_0_fico", "FICO must be 300-850")] else ([] : List (String × String))) = [] := by
    rw [hGF "owner_0_fico" (hne' _ (by decide))]
    simp [h9]
  have c10 : (if hasOwner1S g = "Yes" && ¬ _is_valid_fico (getField g "owner_1_fico") then
      [("owner_1_fico", "FICO must be 300-850")] else ([] : List (String × String))) = [] := by
    rw [hHOW, hGF "owner_1_fico" (hne' _ (by decide))]
    by_cases hy : hasOwner1S form = "Yes"
    · simp [hy, h10 hy]
    · simp [hy]
  have c11 : (if hasOwner1S g = "Yes" then
      patternCheck g "owner_1_ssn" ssnRe "Invalid SSN (###-##-####)"
      ++ patternCheck g "owner_1_mobile" phoneRe "Invalid phone number"
      ++ patternCheck g "owner_1_zip" zipRe "Invalid ZIP"
      ++ patternCheck g "owner_1_state" stateRe "Use 2-letter state"
      else []) = [] := by
    rw [hHOW]
    split
    · rename_i hy
      obtain ⟨hs1, hs2, hs3, hs4⟩ := h11 hy
      rw [patternCheck_congr ssnRe _ (hGF _ (hne' _ (by decide))),
        patternCheck_congr phoneRe _ (hGF _ (hne' _ (by decide))),
        patternCheck_congr zipRe _ (hGF _ (hne' _ (by decide))),
        patternCheck_congr stateRe _ (hGF _ (hne' _ (by decide))),
        hs1, hs2, hs3, hs4]
      rfl
    · rfl
  have c12 : (match getField g "esign_consent" with
      | none => ([] : List (String × String))
      | some v => if v ≠ "" && v ≠ "Yes" then
          [("esign_consent", "Consent is required")] else []) = [] := by
    by_cases hke : k = "esign_consent"
    · subst hke
      unfold blankF at hblank
      cases hg : getField g "esign_consent" with
      | none => rfl
      | some s =>
        rw [hg] at hblank
        simp only [decide_eq_true_eq] at hblank
        subst hblank
        simp
    · rw [hGF _ (fun h => hke h.symm)]
      exact h12
  have c1 : (requiredErrors baseReq g).map Prod.fst = [k] := by
    rw [requiredErrors_keys]
    apply filter_eq_singleton (by decide) hk
    intro x hx
    constructor
    · intro hpx
      by_contra hxk
      rw [hBF x hxk, h1 x hx] at hpx
      exact absurd hpx (by simp)
    · rintro rfl; exact hblank
  unfold validate_fields
  rw [c2, c3, cpat _ einRe _ h4, cpat _ ssnRe _ h5, cpat _ phoneRe _ h6,
    cpat _ zipRe _ h7, cpat _ stateRe _ h8, c9, c10, c11, c12]
  simpa using c1

/-- A concrete form that passes every validation rule (used as the
base point of witnesses and counterexamples). -/
def sampleForm : Form :=
  [("business_legal_name", "Acme LLC"), ("industry", "Retail"),
   ("legal_entity", "LLC"), ("business_start_date", "2020-01-01"),
   ("ein", "12-3456789"), ("company_address1", "1 Main St"),
   ("company_city", "Springfield"), ("company_state", "NY"),
   ("company_zip", "12345"), ("owner_0_first", "Jane"),
   ("owner_0_last", "Doe"), ("owner_0_pct", "100"),
   ("owner_0_dob", "1980-01-01"), ("owner_0_ssn", "123-45-6789"),
   ("owner_0_email", "jane@example.com"), ("owner_0_mobile", "212-555-1234"),
   ("own_real_estate", "No"), ("own_home_location", "No"),
   ("own_business_location", "No"), ("esign_consent", "Yes"),
   ("signature_data", "data:image/png;base64,AAAA"),
   ("signature_date", "2026-01-01"), ("signature_print_name", "Jane Doe")]

/-- C1: for every field of the base required set, an otherwise-valid
form with that field alone omitted (or submitted empty) produces an
error mapping whose key list is exactly that field; and at the
submission level the independently accumulated error mapping alone
decides invalidity (the result is `invalid` iff the accumulated mapping
is non-empty). -/
theorem C1_required_exactness_and_accumulation :
    (∀ (form : Form) (k : String), validate_fields form = [] → k ∈ baseReq →
      (validate_fields (eraseField form k)).map Prod.fst = [k]
      ∧ (validate_fields (setField form k "")).map Prod.fst = [k])
    ∧ (∀ (H : String → String) (sid : Nat) (rawForm : Form) (bankFiles : List String),
        (∃ e, submit H sid rawForm bankFiles = SubmitResult.invalid e)
          ↔ submitErrors rawForm bankFiles ≠ []) := by
  constructor
  · intro form k hvalid hk
    constructor
    · apply validate_blank_one hvalid hk
      · intro k' hk'; rw [getField_erase, if_neg hk']
      · rw [blankF_erase, if_pos rfl]
    · apply validate_blank_one hvalid hk
      · intro k' hk'; rw [getField_set, if_neg hk']
      · rw [blankF_set, if_pos rfl]; decide
  · intro H sid rawForm bankFiles
    by_cases h : submitErrors rawForm bankFiles = []
    · simp [submit, h]
    · simp [submit, h]

/-- Witness for C1 at a concrete input: the sample form is valid, and
blanking `industry` alone yields exactly the key `industry`; a form
with errors is rejected. -/
theorem C1_witness :
    (validate_fields (eraseField sampleForm "industry")).map Prod.fst = ["industry"]
    ∧ (∃ e, submit (fun _ => "h") 1 [] [] = SubmitResult.invalid e) := by
  exact ⟨(C1_required_exactness_and_accumulation.1 sampleForm "industry"
      (by decide) (by decide)).1,
    (C1_required_exactness_and_accumulation.2 (fun _ => "h") 1 [] []).2 (by decide)⟩

/-- The sample form with the second-owner toggle set and a malformed
second-owner SSN. -/
def sampleFormYes1 : Form :=
  ("has_owner_1", "Yes") :: ("owner_1_ssn", "123") :: sampleForm

/-- The sample form with the second-owner toggle off but malformed
second-owner data present. -/
def sampleFormNo1 : Form :=
  ("has_owner_1", "No") :: ("owner_1_ssn", "bogus") :: sampleForm

/-- C2: when the toggle `has_owner_1` is `"Yes"`, every blank field of
the fixed second-owner set produces its `Required` error and a malformed
non-empty `owner_1_ssn` produces the `owner_1_ssn` pattern error; an
absent toggle defaults to `"No"`; and when the toggle is `"No"` or
absent, no key of the error mapping is an `owner_1_*` field. -/
theorem C2_second_owner_toggle :
    (∀ form : Form, getField form "has_owner_1" = some "Yes" →
      (∀ k ∈ owner1Req, blankF form k = true →
        (k, "Required") ∈ validate_fields form)
      ∧ (∀ s, getField form "owner_1_ssn" = some s → ¬ s = "" → ssnRe s = false →
          ("owner_1_ssn", "Invalid SSN (###-##-####)") ∈ validate_fields form))
    ∧ (∀ form : Form, getField form "has_owner_1" = none → hasOwner1S form = "No")
    ∧ (∀ form : Form,
        (getField form "has_owner_1" = some "No" ∨ getField form "has_owner_1" = none) →
        ∀ p ∈ validate_fields form, strPrefix "owner_1_" p.1 = false) := by
  refine ⟨?_, ?_, ?_⟩
  · intro form h
    have hy : hasOwner1S form = "Yes" := by unfold hasOwner1S; rw [h]; decide
    constructor
    · intro k hk hb
      unfold validate_fields
      simp only [List.mem_append]
      refine Or.inl (Or.inl (Or.inl (Or.inl (Or.inl (Or.inl (Or.inl (Or.inl
        (Or.inl (Or.inr ?_)))))))))
      rw [if_pos hy]
      exact mem_requiredErrors_of hk hb
    · intro s hs hne hre
      unfold validate_fields
      simp only [List.mem_append]
      refine Or.inl (Or.inr ?_)
      rw [if_pos hy]
      simp only [List.mem_append]
      refine Or.inl (Or.inl (Or.inl ?_))
      unfold patternCheck
      rw [hs]
      simp [hne, hre]
  · intro form h
    unfold hasOwner1S; rw [h]; decide
  · intro form h p hp
    have hno : hasOwner1S form = "No" := by
      rcases h with h | h <;> (unfold hasOwner1S; rw [h]; decide)
    rcases mem_validate hp with hc | ⟨hc, _⟩ | ⟨_, hyes⟩ | hc
    · exact (by decide : ∀ y ∈ baseReq, strPrefix "owner_1_" y = false) _ hc
    · rcases hc with h' | h' <;> (rw [h']; decide)
    · rw [hno] at hyes; exact absurd hyes (by decide)
    · rcases hc with h' | h' | h' | h' | h' | h' | h' <;> (rw [h']; decide)

/-- Witness for C2 at concrete inputs: with the toggle on, the blank
`owner_1_first` and malformed `owner_1_ssn` both surface; with the
toggle off (or the field absent) no `owner_1_*` key appears despite
malformed second-owner data. -/
theorem C2_witness :
    ("owner_1_first", "Required") ∈ validate_fields sampleFormYes1
    ∧ ("owner_1_ssn", "Invalid SSN (###-##-####)") ∈ validate_fields sampleFormYes1
    ∧ hasOwner1S ([] : Form) = "No"
    ∧ (validate_fields sampleFormNo1).all (fun p => ! strPrefix "owner_1_" p.1) = true := by
  refine ⟨(C2_second_owner_toggle.1 sampleFormYes1 (by decide)).1 "owner_1_first"
      (by decide) (by decide),
    (C2_second_owner_toggle.1 sampleFormYes1 (by decide)).2 "123" (by decide)
      (by decide) (by decide),
    C2_second_owner_toggle.2.1 [] (by decide),
    List.all_eq_true.2 ?_⟩
  intro p hp
  simpa using C2_second_owner_toggle.2.2 sampleFormNo1 (Or.inl (by decide)) p hp

/-- The sample form with the real-estate flag switched on and the two
tenure fields left absent. -/
def sampleFormRE : Form := ("own_real_estate", "Yes") :: sampleForm

/-- C7: when the real-estate flag is `"Yes"`, a missing
`residence_tenure` or `business_location_tenure` each produces its own
`Required` error; when the flag is `"No"` neither key can appear in the
error mapping. -/
theorem C7_real_estate_conditional :
    (∀ form : Form, getField form "own_real_estate" = some "Yes" →
      (blankF form "residence_tenure" = true →
        ("residence_tenure", "Required") ∈ validate_fields form)
      ∧ (blankF form "business_location_tenure" = true →
        ("business_location_tenure", "Required") ∈ validate_fields form))
    ∧ (∀ form : Form, getField form "own_real_estate" = some "No" →
        ∀ p ∈ validate_fields form,
          ¬ p.1 = "residence_tenure" ∧ ¬ p.1 = "business_location_tenure") := by
  constructor
  · intro form h
    have hys : getS form "own_real_estate" = "Yes" := by unfold getS; rw [h]; rfl
    constructor <;>
      (intro hb
       unfold validate_fields
       simp only [List.mem_append]
       refine Or.inl (Or.inl (Or.inl (Or.inl (Or.inl (Or.inl (Or.inl (Or.inl
         (Or.inl (Or.inl (Or.inr ?_))))))))))
       rw [if_pos hys]
       exact mem_requiredErrors_of (by decide) hb)
  · intro form h p hp
    have hno : getS form "own_real_estate" = "No" := by unfold getS; rw [h]; rfl
    rcases mem_validate hp with hc | ⟨_, hcond⟩ | ⟨hc, _⟩ | hc
    · exact (by decide :
        ∀ y ∈ baseReq, ¬ y = "residence_tenure" ∧ ¬ y = "business_location_tenure") _ hc
    · rw [hno] at hcond; exact absurd hcond (by decide)
    · rcases hc with hc | h' | h' | h' | h' | h'
      · exact (by decide :
          ∀ y ∈ owner1Req, ¬ y = "residence_tenure" ∧ ¬ y = "business_location_tenure") _ hc
      all_goals (rw [h']; exact ⟨by decide, by decide⟩)
    · rcases hc with h' | h' | h' | h' | h' | h' | h' <;>
        (rw [h']; exact ⟨by decide, by decide⟩)

/-- Witness for C7 at concrete inputs: with the flag on and both tenure
fields absent, both `Required` errors appear; with the sample form
(flag `"No"`) no tenure key appears. -/
theorem C7_witness :
    ("residence_tenure", "Required") ∈ validate_fields sampleFormRE
    ∧ ("business_location_tenure", "Required") ∈ validate_fields sampleFormRE
    ∧ (validate_fields sampleForm).all
        (fun p => ! (p.1 == "residence_tenure") && ! (p.1 == "business_location_tenure")) = true := by
  refine ⟨(C7_real_estate_conditional.1 sampleFormRE (by decide)).1 (by decide),
    (C7_real_estate_conditional.1 sampleFormRE (by decide)).2 (by decide),
    List.all_eq_true.2 ?_⟩
  intro p hp
  have := C7_real_estate_conditional.2 sampleForm (by decide) p hp
  simp [this.1, this.2]

/-! ## The SSN pattern, compared with the specification's description -/

/-- The specification's description of a well-formed SSN, written from
the spec's words for comparison with the source regex: `###-##-####`
whose area is not `000`, `666`, or `9xx`, whose group is not `00`, and
whose serial is not `0000`. -/
def ssnSpecCore (a b c h1 d e h2 f g i j : Char) : Bool :=
  a.isDigit && b.isDigit && c.isDigit && h1 = '-'
  && d.isDigit && e.isDigit && h2 = '-'
  && f.isDigit && g.isDigit && i.isDigit && j.isDigit
  && (¬ (a = '0' && b = '0' && c = '0'))
  && (¬ (a = '6' && b = '6' && c = '6'))
  && (¬ a = '9')
  && (¬ (d = '0' && e = '0'))
  && (¬ (f = '0' && g = '0' && i = '0' && j = '0'))

def ssnSpecL : List Char → Bool
  | [a, b, c, h1, d, e, h2, f, g, i, j] => ssnSpecCore a b c h1 d e h2 f g i j
  | _ => false

/-- A string exactly of the spec's SSN shape. -/
def ssnSpecForm (s : String) : Bool := ssnSpecL s.data

/-- The fixed-length core of the regex agrees with the spec's
description character by character. -/
theorem ssnCore_iff (a b c h1 d e h2 f g i j : Char) :
    ssnCore a b c h1 d e h2 f g i j = true ↔ ssnSpecCore a b c h1 d e h2 f g i j = true := by
  unfold ssnCore ssnSpecCore
  simp only [Bool.and_eq_true, Bool.or_eq_true, decide_eq_true_eq, not_or]
  tauto

/-- C5 counterexample: because `$` of Python's `re` also matches just
before a final newline, `SSN_RE` accepts `"123-45-6789\n"`, which is not
of the form `###-##-####`; so the pattern does not accept *exactly* the
described strings. -/
theorem C5_counterexample :
    ssnRe "123-45-6789\n" = true ∧ ssnSpecForm "123-45-6789\n" = false := by
  constructor <;> decide

/-- C5 (amended): the SSN pattern accepts exactly the strings of the
form `###-##-####` (area not `000`/`666`/`9xx`, group not `00`, serial
not `0000`) — possibly followed by one trailing newline, an artifact of
the `$` anchor; the claim's concrete examples all behave as stated. -/
theorem C5_ssn_pattern_amended :
    (∀ s : String, ssnRe s = true ↔
      (ssnSpecForm s = true ∨
        (ssnSpecForm (String.mk s.data.dropLast) = true ∧ s.data.getLast? = some '\n')))
    ∧ ssnRe "123-45-6789" = true
    ∧ ssnRe "000-12-3456" = false ∧ ssnRe "666-12-3456" = false
    ∧ ssnRe "912-12-3456" = false ∧ ssnRe "123-00-6789" = false
    ∧ ssnRe "123-45-0000" = false := by
  refine ⟨?_, by decide, by decide, by decide, by decide, by decide, by decide⟩
  intro s
  rcases s with ⟨cs⟩
  show ssnReL cs = true ↔
    (ssnSpecL cs = true ∨ (ssnSpecL cs.dropLast = true ∧ cs.getLast? = some '\n'))
  rcases cs with _ | ⟨a, _ | ⟨b, _ | ⟨c, _ | ⟨h1, _ | ⟨d, _ | ⟨e, _ | ⟨h2, _ | ⟨f, _ |
    ⟨g, _ | ⟨i, _ | ⟨j, _ | ⟨nl, _ | ⟨m, rest⟩⟩⟩⟩⟩⟩⟩⟩⟩⟩⟩⟩⟩
  all_goals simp [ssnReL, ssnSpecL, List.dropLast, List.getLast?_cons_cons,
    List.getLast?_singleton, ssnCore_iff]

/-! ## The FICO check, compared with the specification's description -/

theorem dropWhile_head_false {p : Char → Bool} :
    ∀ (l : List Char) (a : Char), (l.dropWhile p).head? = some a → p a = false := by
  intro l
  induction l with
  | nil => intro a h; simp [List.dropWhile] at h
  | cons x xs ih =>
    intro a h
    by_cases hx : p x
    · rw [List.dropWhile_cons_of_pos hx] at h; exact ih a h
    · rw [List.dropWhile_cons_of_neg hx] at h
      simp only [List.head?_cons, Option.some.injEq] at h
      rw [← h]
      exact Bool.eq_false_iff.2 hx

/-- The last character of a stripped string is never whitespace. -/
theorem pyStrip_last (s : String) :
    ∀ c, (pyStrip s).data.getLast? = some c → pyIsSpace c = false := by
  intro c h
  unfold pyStrip stripEnd at h
  rw [List.getLast?_reverse] at h
  exact dropWhile_head_false _ c h

/-- Exactly three ASCII digits. -/
def threeDigitsL : List Char → Bool
  | [a, b, c] => a.isDigit && b.isDigit && c.isDigit
  | _ => false

/-- The specification's description of an acceptable non-empty FICO
value, written from the spec's words: exactly 3 digits with a numeric
value in `[300, 850]`. -/
def ficoSpecAccept (v : String) : Bool :=
  threeDigitsL v.data && 300 ≤ digitsToNat v.data && digitsToNat v.data ≤ 850

/-- On a list without a trailing newline, the `FICO_RE` matcher is the
plain three-digit shape. -/
theorem ficoReL_no_nl (cs : List Char)
    (h : ∀ c, cs.getLast? = some c → pyIsSpace c = false) :
    ficoReL cs = threeDigitsL cs := by
  rcases cs with _ | ⟨a, _ | ⟨b, _ | ⟨c, _ | ⟨nl, _ | ⟨m, rest⟩⟩⟩⟩⟩
  all_goals simp [ficoReL, threeDigitsL]
  have hnl := h nl (by simp [List.getLast?_cons_cons, List.getLast?_singleton])
  intro _ _ _
  intro hh
  rw [hh] at hnl
  exact absurd hnl (by decide)

/-- C6 counterexample: `_is_valid_fico` strips its argument first, so
the non-empty value `" 700 "` — which is not exactly three digits — is
accepted, contradicting "otherwise accepts a value exactly when it is
exactly 3 digits and its numeric value lies in [300, 850]". -/
theorem C6_counterexample :
    _is_valid_fico (some " 700 ") = true
    ∧ ¬ (" 700 " : String) = "" ∧ ficoSpecAccept " 700 " = false := by
  refine ⟨by decide, by decide, by decide⟩

/-- C6 (amended): FICO validation accepts an absent value or one that is
blank after stripping surrounding whitespace; otherwise it accepts
exactly when the *stripped* value is exactly 3 digits with numeric value
in `[300, 850]`.  The claim's examples hold, and the check is applied to
`owner_0_fico` always and to `owner_1_fico` exactly when the
second-owner toggle is `"Yes"`. -/
theorem C6_fico_amended :
    (∀ s : String, _is_valid_fico (some s) = true ↔
      (pyStrip s = "" ∨ ficoSpecAccept (pyStrip s) = true))
    ∧ _is_valid_fico none = true
    ∧ _is_valid_fico (some "") = true ∧ _is_valid_fico (some "700") = true
    ∧ _is_valid_fico (some "299") = false ∧ _is_valid_fico (some "851") = false
    ∧ _is_valid_fico (some "abc") = false
    ∧ (∀ form : Form, _is_valid_fico (getField form "owner_0_fico") = false →
        ("owner_0_fico", "FICO must be 300-850") ∈ validate_fields form)
    ∧ (∀ form : Form, hasOwner1S form = "Yes" →
        _is_valid_fico (getField form "owner_1_fico") = false →
        ("owner_1_fico", "FICO must be 300-850") ∈ validate_fields form)
    ∧ (∀ form : Form, ¬ hasOwner1S form = "Yes" →
        ∀ p ∈ validate_fields form, ¬ p.1 = "owner_1_fico") := by
  refine ⟨?_, by decide, by decide, by decide, by decide, by decide, by decide, ?_, ?_, ?_⟩
  · intro s
    have hre : ficoReL (pyStrip s).data = threeDigitsL (pyStrip s).data :=
      ficoReL_no_nl _ (pyStrip_last s)
    by_cases hb : pyStrip s = ""
    · simp [_is_valid_fico, hb]
    · by_cases h3 : threeDigitsL (pyStrip s).data = true
      · simp [_is_valid_fico, hb, ficoRe, hre, ficoSpecAccept, h3, Bool.and_assoc]
      · simp [_is_valid_fico, hb, ficoRe, hre, ficoSpecAccept, h3]
  · intro form hf
    unfold validate_fields
    simp only [List.mem_append]
    refine Or.inl (Or.inl (Or.inl (Or.inr ?_)))
    rw [if_pos (by simp [hf])]
    exact List.mem_singleton.2 rfl
  · intro form hy hf
    unfold validate_fields
    simp only [List.mem_append]
    refine Or.inl (Or.inl (Or.inr ?_))
    rw [if_pos (by simp [hy, hf])]
    exact List.mem_singleton.2 rfl
  · intro form hy p hp
    rcases mem_validate hp with hc | ⟨hc, _⟩ | ⟨_, hyes⟩ | hc
    · exact (by decide : ∀ y ∈ baseReq, ¬ y = "owner_1_fico") _ hc
    · rcases hc with h' | h' <;> (rw [h']; decide)
    · exact absurd hyes hy
    · rcases hc with h' | h' | h' | h' | h' | h' | h' <;> (rw [h']; decide)

/-- Witness for C6 at a concrete input: an out-of-range `owner_0_fico`
of `"299"` produces the FICO error on an otherwise valid form. -/
theorem C6_witness :
    ("owner_0_fico", "FICO must be 300-850") ∈
      validate_fields (("owner_0_fico", "299") :: sampleForm) := by
  exact C6_fico_amended.2.2.2.2.2.2.2.1 (("owner_0_fico", "299") :: sampleForm) (by decide)

/-! ## Rep-code signing and verification -/

/-- C10: verification commutes with normalisation — for any digest
function `H` (never returning the empty string, as a hex digest cannot),
any code `c`, and any `c'` equal to `c` up to surrounding whitespace and
letter case, `verify_rep_code c' (sign_rep_code c)` succeeds; in
particular the round trip always verifies. -/
theorem C10_sign_verify_roundtrip :
    (∀ H : String → String, (∀ x, ¬ H x = "") →
      ∀ c c' : String, pyStrip (pyLower c') = pyStrip (pyLower c) →
        verify_rep_code H c' (sign_rep_code H c) = true)
    ∧ (∀ H : String → String, (∀ x, ¬ H x = "") →
      ∀ c : String, verify_rep_code H c (sign_rep_code H c) = true) := by
  have main : ∀ H : String → String, (∀ x, ¬ H x = "") →
      ∀ c c' : String, pyStrip (pyLower c') = pyStrip (pyLower c) →
        verify_rep_code H c' (sign_rep_code H c) = true := by
    intro H hH c c' hnorm
    unfold verify_rep_code
    by_cases hc' : c' = ""
    · rw [if_pos (Or.inl hc')]
      simp [hc']
    · rw [if_neg ?_]
      · unfold sign_rep_code
        rw [hnorm]
        simp
      · push_neg
        exact ⟨hc', hH _⟩
  exact ⟨main, fun H hH c => main H hH c c rfl⟩

/-- Witness for C10 at concrete inputs: `" AbC"` verifies against the
signature of `"abc "` under a concrete digest function. -/
theorem C10_witness :
    verify_rep_code (fun _ => "d0f1") " AbC"
      (sign_rep_code (fun _ => "d0f1") "abc ") = true := by
  exact C10_sign_verify_roundtrip.1 (fun _ => "d0f1")
    (by intro x; show ¬ "d0f1" = ""; decide) "abc " " AbC" (by decide)

/-! ## Rep attribution in `/submit` -/

/-- `true` exactly on a successful result carrying no attribution. -/
def repAbsent : SubmitResult → Bool
  | SubmitResult.success rec => rec.rep_name == none && rec.rep_email == none
  | SubmitResult.invalid _ => false

/-- C3: attribution never fails a submission.  A successful record's
attribution is both-set or both-absent; an empty or unknown code, or a
signature that fails verification, yields no attribution; and under no
attribution the outcome is still decided solely by the accumulated error
mapping (success with no rep fields when it is empty, the usual
rejection otherwise). -/
theorem C3_rep_attribution_never_fails :
    (∀ (H : String → String) (sid : Nat) (rawForm : Form) (bankFiles : List String)
        (rec : AppRecord),
        submit H sid rawForm bankFiles = SubmitResult.success rec →
        rec.rep_name.isSome = rec.rep_email.isSome)
    ∧ (∀ (H : String → String) (rawForm : Form),
        ((¬ pyStrip (getS (stripForm rawForm) "rep_code") = "" ∧
            verify_rep_code H (pyStrip (getS (stripForm rawForm) "rep_code"))
              (pyStrip (getS (stripForm rawForm) "rep_sig")) = false)
          ∨ get_rep_info (pyStrip (getS (stripForm rawForm) "rep_code")) = none) →
        effectiveRepInfo H rawForm = none)
    ∧ (∀ (H : String → String) (sid : Nat) (rawForm : Form) (bankFiles : List String),
        effectiveRepInfo H rawForm = none →
        (submitErrors rawForm bankFiles = [] →
          ∃ rec, submit H sid rawForm bankFiles = SubmitResult.success rec
            ∧ rec.rep_name = none ∧ rec.rep_email = none)
        ∧ (¬ submitErrors rawForm bankFiles = [] →
          submit H sid rawForm bankFiles =
            SubmitResult.invalid (submitErrors rawForm bankFiles))) := by
  refine ⟨?_, ?_, ?_⟩
  · intro H sid rawForm bankFiles rec hsub
    unfold submit at hsub
    split at hsub
    · injection hsub with h
      subst h
      cases hE : effectiveRepInfo H rawForm <;> simp [hE]
    · exact SubmitResult.noConfusion hsub
  · intro H rawForm hbad
    simp only [effectiveRepInfo]
    rcases hbad with ⟨hne, hver⟩ | hB
    · rw [if_pos ⟨hne, hver⟩]
      rfl
    · split
      · rfl
      · exact hB
  · intro H sid rawForm bankFiles hnone
    constructor
    · intro hok
      unfold submit
      rw [if_pos hok]
      refine ⟨_, rfl, ?_, ?_⟩ <;> simp [hnone]
    · intro hbad
      unfold submit
      rw [if_neg hbad]

/-- Witness for C3 at concrete inputs: a known code with a bad signature
is silently dropped — the submission succeeds with no attribution. -/
theorem C3_witness :
    repAbsent (submit (fun _ => "goodsig") 5
      (("rep_code", "tom") :: ("rep_sig", "bad") :: sampleForm) ["stmt.pdf"]) = true := by
  obtain ⟨rec, hs, h1, h2⟩ :=
    (C3_rep_attribution_never_fails.2.2 (fun _ => "goodsig") 5
      (("rep_code", "tom") :: ("rep_sig", "bad") :: sampleForm) ["stmt.pdf"]
      (C3_rep_attribution_never_fails.2.1 (fun _ => "goodsig")
        (("rep_code", "tom") :: ("rep_sig", "bad") :: sampleForm)
        (Or.inl ⟨by decide, by decide⟩))).1 (by decide)
  rw [hs]
  simp [repAbsent, h1, h2]

/-! ## Loan-amount coercion -/

def isSuccess : SubmitResult → Bool
  | SubmitResult.success _ => true
  | SubmitResult.invalid _ => false

/-- The persisted loan amount of a result (0 for a rejection). -/
def resultLoan : SubmitResult → ℚ
  | SubmitResult.success rec => rec.loan_amount
  | SubmitResult.invalid _ => 0

/-- The otherwise-valid sample form with a negative loan amount. -/
def sampleFormNeg : Form := ("loan_amount", "-5") :: sampleForm

/-- C4 counterexample: nothing validates `loan_amount`, and Python's
`float` parses `"-5"` to a negative number, so a successful submission
can store a negative `loan_amount` — refuting "the stored loan_amount is
greater than or equal to 0 for every submitted form". -/
theorem C4_counterexample :
    isSuccess (submit (fun _ => "h") 1 sampleFormNeg ["stmt.pdf"]) = true
    ∧ resultLoan (submit (fun _ => "h") 1 sampleFormNeg ["stmt.pdf"]) < 0 := by
  refine ⟨by decide, ?_⟩
  have h1 : resultLoan (submit (fun _ => "h") 1 sampleFormNeg ["stmt.pdf"])
      = (-1 : ℚ) * (((5 : ℕ) : ℚ) / ((10 : ℚ) ^ (0 : ℕ))) := rfl
  rw [h1]
  norm_num

/-- C4 (amended): the stored `loan_amount` is the parsed decimal value
of the (stripped) `loan_amount` field, and it is `0` whenever the field
is absent, empty, or fails to parse; it is *not* clamped to be
non-negative. -/
theorem C4_loan_amount_amended :
    ∀ (H : String → String) (sid : Nat) (rawForm : Form) (bankFiles : List String)
      (rec : AppRecord),
      submit H sid rawForm bankFiles = SubmitResult.success rec →
      (match getField (normalizeOwner1 (stripForm rawForm)) "loan_amount" with
       | none => rec.loan_amount = 0
       | some s =>
         if s = "" then rec.loan_amount = 0
         else match parsePyFloat s with
              | none => rec.loan_amount = 0
              | some q => rec.loan_amount = q) := by
  intro H sid rawForm bankFiles rec hsub
  unfold submit at hsub
  split at hsub
  · injection hsub with h
    subst h
    cases hg : getField (normalizeOwner1 (stripForm rawForm)) "loan_amount" with
    | none => simp [hg]
    | some s =>
      by_cases hs : s = ""
      · simp [hg, hs]
      · cases hp : parsePyFloat s <;> simp [hg, hs, hp]
  · exact SubmitResult.noConfusion hsub

/-- Witness for C4 (amended) at a concrete input: the sample form has no
`loan_amount` field and stores 0. -/
theorem C4_witness :
    resultLoan (submit (fun _ => "h") 1 sampleForm ["stmt.pdf"]) = 0 := by
  cases hE : submit (fun _ => "h") 1 sampleForm ["stmt.pdf"] with
  | invalid e =>
    have hs : isSuccess (submit (fun _ => "h") 1 sampleForm ["stmt.pdf"]) = true := by decide
    rw [hE] at hs
    exact absurd hs (by simp [isSuccess])
  | success rec =>
    have h := C4_loan_amount_amended (fun _ => "h") 1 sampleForm ["stmt.pdf"] rec hE
    have hg : getField (normalizeOwner1 (stripForm sampleForm)) "loan_amount" = none := by
      decide
    rw [hg] at h
    simpa [resultLoan] using h

/-! ## Owners list -/

theorem dropWhile_eq_self_of_head {p : Char → Bool} (l : List Char)
    (h : ∀ c, l.head? = some c → p c = false) : l.dropWhile p = l := by
  cases l with
  | nil => rfl
  | cons a t =>
    rw [List.dropWhile_cons_of_neg (by simp [h a rfl])]

theorem stripEnd_isPrefix (l : List Char) : stripEnd l <+: l := by
  unfold stripEnd
  conv_rhs => rw [← List.reverse_reverse l]
  rw [ List.reverse_prefix]
  exact List.dropWhile_suffix _

/-- The first character of a stripped string is never whitespace. -/
theorem pyStrip_head (s : String) :
    ∀ c, (pyStrip s).data.head? = some c → pyIsSpace c = false := by
  intro c h
  replace h : (stripEnd (stripStart s.data)).head? = some c := h
  obtain ⟨t, ht⟩ := stripEnd_isPrefix (stripStart s.data)
  have hl : (stripStart s.data).head? = some c := by
    cases hse : stripEnd (stripStart s.data) with
    | nil => rw [hse] at h; simp at h
    | cons a t' =>
      rw [hse] at h
      simp only [List.head?_cons, Option.some.injEq] at h
      rw [← ht, hse, List.cons_append, List.head?_cons, h]
  exact dropWhile_head_false _ c hl

theorem pyStrip_idem (s : String) : pyStrip (pyStrip s) = pyStrip s := by
  have h1 : stripStart (pyStrip s).data = (pyStrip s).data :=
    dropWhile_eq_self_of_head _ (pyStrip_head s)
  have h2 : stripEnd (pyStrip s).data = (pyStrip s).data := by
    unfold stripEnd
    rw [dropWhile_eq_self_of_head]
    · exact List.reverse_reverse _
    · intro c hc
      rw [List.head?_reverse] at hc
      exact pyStrip_last s c hc
  show String.mk (stripEnd (stripStart (pyStrip s).data)) = pyStrip s
  rw [h1, h2]

theorem getField_normalizeOwner1 (f : Form) (k : String) (h : ¬ k = "has_owner_1") :
    getField (normalizeOwner1 f) k = getField f k := by
  unfold normalizeOwner1
  split
  · rw [getField_set, if_neg h]
  · rfl

/-- An owners list contains at least the first owner whenever the
trimmed owner-0 first name is non-empty. -/
theorem ownersOf_pos (f : Form) (h : ¬ pyStrip (getS f "owner_0_first") = "") :
    1 ≤ (ownersOf f).length := by
  by_cases hy : hasOwner1S f = "Yes" <;>
    simp [ownersOf, hy, h]

/-- The owners list of a result (empty for a rejection). -/
def resultOwners : SubmitResult → List String
  | SubmitResult.success rec => rec.owners
  | SubmitResult.invalid _ => []

/-- C8: a successful submission stores the owners list built in order
from owner 0 (and owner 1 when the toggle is `"Yes"`) by concatenating
the trimmed names and skipping all-empty entries (`ownersOf`), which is
never empty since owner-0's first name is required; the Jane Doe example
stores exactly `["Jane Doe"]`. -/
theorem C8_owners_list :
    (∀ (H : String → String) (sid : Nat) (rawForm : Form) (bankFiles : List String)
        (rec : AppRecord),
        submit H sid rawForm bankFiles = SubmitResult.success rec →
        rec.owners = ownersOf (normalizeOwner1 (stripForm rawForm))
        ∧ 1 ≤ rec.owners.length)
    ∧ resultOwners (submit (fun _ => "h") 1 sampleForm ["stmt.pdf"]) = ["Jane Doe"] := by
  constructor
  · intro H sid rawForm bankFiles rec hsub
    unfold submit at hsub
    split at hsub
    · rename_i hok
      injection hsub with h
      subst h
      refine ⟨rfl, ?_⟩
      have hval : validate_fields (normalizeOwner1 (stripForm rawForm)) = [] := by
        unfold submitErrors at hok
        exact (List.append_eq_nil.1 hok).1
      have hbf : blankF (normalizeOwner1 (stripForm rawForm)) "owner_0_first" = false :=
        (validate_nil_decomp hval).1 _ (by decide)
      unfold blankF at hbf
      cases hg : getField (normalizeOwner1 (stripForm rawForm)) "owner_0_first" with
      | none => rw [hg] at hbf; simp at hbf
      | some v =>
        rw [hg] at hbf
        simp only [decide_eq_false_iff_not] at hbf
        have hvp : v = pyStrip v := by
          have hgf : getField (normalizeOwner1 (stripForm rawForm)) "owner_0_first"
              = (getField rawForm "owner_0_first").map pyStrip := by
            rw [getField_normalizeOwner1 _ _ (by decide), getField_strip]
          rw [hg] at hgf
          cases hu : getField rawForm "owner_0_first" with
          | none => rw [hu] at hgf; simp at hgf
          | some u =>
            rw [hu] at hgf
            simp only [Option.map_some', Option.some.injEq] at hgf
            rw [hgf, pyStrip_idem]
        apply ownersOf_pos
        rw [show getS (normalizeOwner1 (stripForm rawForm)) "owner_0_first" = v from by
          unfold getS; rw [hg]; rfl]
        rw [← hvp]
        exact hbf
    · exact SubmitResult.noConfusion hsub
  · decide

/-- Witness for C8 at a concrete input: the Jane Doe submission stores a
non-empty owners list. -/
theorem C8_witness :
    1 ≤ (resultOwners (submit (fun _ => "h") 1 sampleForm ["stmt.pdf"])).length := by
  cases hE : submit (fun _ => "h") 1 sampleForm ["stmt.pdf"] with
  | invalid e =>
    have hs : isSuccess (submit (fun _ => "h") 1 sampleForm ["stmt.pdf"]) = true := by decide
    rw [hE] at hs
    exact absurd hs (by simp [isSuccess])
  | success rec =>
    have h := (C8_owners_list.1 (fun _ => "h") 1 sampleForm ["stmt.pdf"] rec hE).2
    simpa [resultOwners] using h

/-! ## File sanitisation and storage keys -/

/-- Sanitised names contain no path separator. -/
theorem sanitize_no_sep (n : String) :
    '/' ∉ (sanitizeFilename n).data ∧ '\\' ∉ (sanitizeFilename n).data := by
  unfold sanitizeFilename
  constructor <;>
    (intro hmem
     simp only [List.mem_map] at hmem
     obtain ⟨c, ⟨c0, _, hc0⟩, hc⟩ := hmem
     subst hc0
     by_cases h1 : c0 = '/' <;> by_cases h2 : c0 = '\\' <;>
       simp [h1, h2] at hc)

/-- C9: every file stored by a successful submission, and every file
stored by `/upload-docs`, keeps a sanitised name free of `/` and `\`,
with the storage key composed exactly as
`{applicationId}__{docType}__{sanitizedName}` and the doc type drawn
from the slot the file arrived in. -/
theorem C9_file_keys :
    (∀ (H : String → String) (sid : Nat) (rawForm : Form) (bankFiles : List String)
        (rec : AppRecord),
        submit H sid rawForm bankFiles = SubmitResult.success rec →
        ∀ sf ∈ rec.files,
          ('/' ∉ sf.filename.data ∧ '\\' ∉ sf.filename.data)
          ∧ sf.doc_type = "bank_statement"
          ∧ sf.storage_key = storageKey sid sf.doc_type sf.filename
          ∧ ∃ n ∈ bankFiles, ¬ n = "" ∧ sf.filename = sanitizeFilename n)
    ∧ (∀ (sid : Nat) (voided_check id_doc : Option String),
        ∀ sf ∈ upload_docs sid voided_check id_doc,
          ('/' ∉ sf.filename.data ∧ '\\' ∉ sf.filename.data)
          ∧ (sf.doc_type = "voided_check" ∨ sf.doc_type = "id_doc")
          ∧ sf.storage_key = storageKey sid sf.doc_type sf.filename
          ∧ ((sf.doc_type = "voided_check" →
                ∃ n, voided_check = some n ∧ sf.filename = sanitizeFilename n)
             ∧ (sf.doc_type = "id_doc" →
                ∃ n, id_doc = some n ∧ sf.filename = sanitizeFilename n))) := by
  have slot : ∀ (sid : Nat) (d : String) (file : Option String),
      ∀ sf ∈ saveSlot sid d file,
        ('/' ∉ sf.filename.data ∧ '\\' ∉ sf.filename.data)
        ∧ sf.doc_type = d
        ∧ sf.storage_key = storageKey sid sf.doc_type sf.filename
        ∧ ∃ n, file = some n ∧ sf.filename = sanitizeFilename n := by
    intro sid d file sf hsf
    unfold saveSlot at hsf
    split at hsf
    · simp at hsf
    · rename_i n
      split at hsf
      · rcases List.mem_singleton.1 hsf with rfl
        exact ⟨sanitize_no_sep n, rfl, rfl, n, rfl, rfl⟩
      · simp at hsf
  constructor
  · intro H sid rawForm bankFiles rec hsub sf hsf
    unfold submit at hsub
    split at hsub
    · injection hsub with h
      subst h
      simp only [List.mem_map] at hsf
      obtain ⟨n, hn, hsf⟩ := hsf
      obtain ⟨hn1, hn2⟩ := List.mem_filter.1 hn
      subst hsf
      refine ⟨sanitize_no_sep n, rfl, rfl, n, hn1, by simpa using hn2, rfl⟩
    · exact SubmitResult.noConfusion hsub
  · intro sid voided_check id_doc sf hsf
    rcases List.mem_append.1 hsf with h | h
    · obtain ⟨hsep, hd, hkey, n, hfile, hname⟩ := slot sid "voided_check" voided_check sf h
      refine ⟨hsep, Or.inl hd, hkey, ?_, ?_⟩
      · intro _; exact ⟨n, hfile, hname⟩
      · intro hid; rw [hd] at hid; exact absurd hid (by decide)
    · obtain ⟨hsep, hd, hkey, n, hfile, hname⟩ := slot sid "id_doc" id_doc sf h
      refine ⟨hsep, Or.inr hd, hkey, ?_, ?_⟩
      · intro hvd; rw [hd] at hvd; exact absurd hvd (by decide)
      · intro _; exact ⟨n, hfile, hname⟩

/-- Witness for C9 at a concrete input: uploading `"a/b.png"` as a
voided check stores it under `a_b.png` with the composed key. -/
theorem C9_witness :
    '/' ∉ (SavedFile.mk "a_b.png" "7__voided_check__a_b.png" "voided_check").filename.data
    ∧ (SavedFile.mk "a_b.png" "7__voided_check__a_b.png" "voided_check").storage_key
      = storageKey 7 "voided_check" "a_b.png" := by
  have h := C9_file_keys.2 7 (some "a/b.png") none
    (SavedFile.mk "a_b.png" "7__voided_check__a_b.png" "voided_check") (by decide)
  exact ⟨h.1.1, h.2.2.1⟩

end Pathway
